import Mathlib

set_option maxRecDepth 100000

/-!
Shallow embedding of the task-management client (auth wrapper, task form,
task list, dashboard) together with the row-level access policy of the data
layer, and proofs of the specification claims about them.

Sources embedded:
- `src/lib/auth.ts` (`getCurrentUser`)
- `src/components/TaskForm.tsx` (`taskSchema`, `handleSubmit`, form init)
- `src/components/TaskList.tsx` (`handleDelete`, `handleStatusChange`)
- `src/pages/Dashboard.tsx` (`loadTasks`)
-/

namespace TaskApp

/-! ## Data model -/

/-- Task status enumeration: `'pending' | 'in_progress' | 'completed'`. -/
inductive Status where
  | pending
  | in_progress
  | completed
deriving DecidableEq, Repr

/-- Task priority enumeration: `'low' | 'medium' | 'high'`. -/
inductive Priority where
  | low
  | medium
  | high
deriving DecidableEq, Repr

/-- Role enumeration of the `user_roles` table: `'user' | 'admin'`. -/
inductive Role where
  | user
  | admin
deriving DecidableEq, Repr

/-- A row of the `tasks` table, as selected by the Dashboard
(`id, title, description, status, priority, due_date, created_at, user_id`).
Identifiers are opaque keys, modelled as `Nat`; `created_at` is a timestamp,
modelled as `Nat` so that the storage order is the numeric order. -/
structure Task where
  id : Nat
  user_id : Nat
  title : String
  description : Option String
  status : Status
  priority : Priority
  due_date : Option String
  created_at : Nat
deriving DecidableEq, Repr

/-! ## Auth wrapper (`src/lib/auth.ts`) -/

/-- The user object inside a session, as used by `getCurrentUser`
(`session.user.id`, `session.user.email`). -/
structure SessionUser where
  id : Nat
  email : String
deriving DecidableEq, Repr

/-- The result of `supabase.auth.getSession()`: a `data.session` that may be
absent and an `error` flag. -/
structure SessionResult where
  session : Option SessionUser
  error : Bool
deriving DecidableEq, Repr

/-- The row returned by the profile lookup: `profiles.full_name` is nullable
text. -/
structure ProfileRow where
  full_name : Option String
deriving DecidableEq, Repr

/-- The `AuthUser` interface of `src/lib/auth.ts`. -/
structure AuthUser where
  id : Nat
  email : String
  full_name : Option String
  role : Role
deriving DecidableEq, Repr

/-- `getCurrentUser` from `src/lib/auth.ts`, with the three awaited lookups
passed in as their results: the session call, the `user_roles` single-row
query (`none` when it errors or matches no row, mirroring `roleData?.`), and
the `profiles` single-row query (likewise).  The body mirrors the source:
return `null` on session error or absent session; otherwise build the user
with `full_name := profileData?.full_name` and
`role := roleData?.role || 'user'`. -/
def getCurrentUser (sres : SessionResult) (roleData : Option Role)
    (profileData : Option ProfileRow) : Option AuthUser :=
  if sres.error then none
  else
    match sres.session with
    | none => none
    | some u =>
        some { id := u.id
               email := u.email
               full_name := profileData.bind (fun p => p.full_name)
               role := match roleData with
                       | some r => r
                       | none => Role.user }

end TaskApp

namespace TaskApp

/-! ## Task form (`src/components/TaskForm.tsx`) -/

/-- The `formData` state of `TaskForm`: every field is the string or
enumeration value currently in the controlled inputs; an absent description
or due date is the empty string. -/
structure FormData where
  title : String
  description : String
  status : Status
  priority : Priority
  due_date : String
deriving DecidableEq, Repr

/-- The payload `taskData` that `handleSubmit` sends to the data layer
(insert or update): `{title, description, status, priority, due_date,
user_id}` with the empty description mapped to null and the due date
converted through `Date`/`toISOString`. -/
structure TaskData where
  title : String
  description : Option String
  status : Status
  priority : Priority
  due_date : Option String
  user_id : Nat
deriving DecidableEq, Repr

/-- Drop leading whitespace characters from a character list. -/
def dropWhitespace : List Char → List Char
  | [] => []
  | c :: cs => if c.isWhitespace then dropWhitespace cs else c :: cs

/-- JavaScript `String.prototype.trim`, as the zod `.trim()` transform
applies it: strip whitespace from both ends (the inputs relevant here use
only ASCII whitespace). -/
def jsTrim (s : String) : String :=
  String.mk ((dropWhitespace (dropWhitespace s.toList).reverse).reverse)

/-- zod issues produced by the `title` field of `taskSchema`:
`z.string().trim().min(1, 'Title is required').max(200, 'Title too long')`.
The trim transform runs first, then the two length checks in order. -/
def titleIssues (t : String) : List String :=
  let trimmed := jsTrim t
  (if trimmed.length < 1 then ["Title is required"] else []) ++
  (if trimmed.length > 200 then ["Title too long"] else [])

/-- zod issues produced by the `description` field:
`z.string().max(1000, 'Description too long').optional()`; an absent value
passes. -/
def descriptionIssues : Option String → List String
  | none => []
  | some s => if s.length > 1000 then ["Description too long"] else []

/-- All issues of `taskSchema.parse` on the object `handleSubmit` builds
(`description: formData.description || undefined`,
`due_date: formData.due_date || undefined`), in schema shape order:
title, description, status, priority, due_date.  Status and priority are
drawn from their enumerations by the typed form state and cannot fail, and
`due_date` is `z.string().optional()` with no further check, so neither
contributes issues. -/
def parseIssues (f : FormData) : List String :=
  titleIssues f.title ++
  descriptionIssues (if f.description = "" then none else some f.description)

/-- Outcome of one run of `handleSubmit`: the validation toast (carrying
the single reported message `error.issues[0].message`) with an early
return, an uncaught exception thrown while building `taskData` (an invalid
due date makes `toISOString()` throw), or a persistence call with the
payload. -/
inductive SubmitOutcome where
  | validationError (message : String)
  | crash
  | write (payload : TaskData)
deriving DecidableEq, Repr

/-- `handleSubmit` of `TaskForm`, with JavaScript date conversion passed in
as `parseDate` (`parseDate s = some iso` models
`new Date(s).toISOString() = iso`; `none` models the `Invalid Date` throw).
The body mirrors the source: parse the schema and return on the first
issue; otherwise build `taskData` (converting a non-empty due date through
`parseDate`) and issue the insert/update with it. -/
def handleSubmit (parseDate : String → Option String) (userId : Nat)
    (f : FormData) : SubmitOutcome :=
  match parseIssues f with
  | msg :: _ => SubmitOutcome.validationError msg
  | [] =>
    if f.due_date = "" then
      SubmitOutcome.write
        { title := f.title
          description := if f.description = "" then none else some f.description
          status := f.status
          priority := f.priority
          due_date := none
          user_id := userId }
    else
      match parseDate f.due_date with
      | none => SubmitOutcome.crash
      | some iso =>
          SubmitOutcome.write
            { title := f.title
              description := if f.description = "" then none else some f.description
              status := f.status
              priority := f.priority
              due_date := some iso
              user_id := userId }

/-- The characters of a list before the first `'T'`. -/
def takeUntilT : List Char → List Char
  | [] => []
  | c :: cs => if c = 'T' then [] else c :: takeUntilT cs

/-- The substring of `s` before the first `'T'`: `s.split('T')[0]`. -/
def splitBeforeT (s : String) : String :=
  String.mk (takeUntilT s.toList)

/-- The initial `formData` that `TaskForm` builds from an existing task:
`title: task?.title || ''`, `description: task?.description || ''`,
`status: task?.status || 'pending'`, `priority: task?.priority || 'medium'`,
`due_date: task?.due_date ? task.due_date.split('T')[0] : ''`. -/
def initFormData (task : Task) : FormData :=
  { title := task.title
    description := task.description.getD ""
    status := task.status
    priority := task.priority
    due_date := match task.due_date with
                | some d => splitBeforeT d
                | none => "" }

/-- Shape check for an ECMAScript date-only string `YYYY-MM-DD` with month
01–12 and day 01–31 (the day-in-month refinement of the platform parser is
omitted; the theorems below only evaluate it on strings that both accept
or both reject). -/
def isDateOnly (s : String) : Bool :=
  match s.toList with
  | [y1, y2, y3, y4, s1, m1, m2, s2, d1, d2] =>
      y1.isDigit && y2.isDigit && y3.isDigit && y4.isDigit &&
      (s1 == '-') && m1.isDigit && m2.isDigit && (s2 == '-') &&
      d1.isDigit && d2.isDigit &&
      (let mo := 10 * (m1.toNat - 48) + (m2.toNat - 48)
       let da := 10 * (d1.toNat - 48) + (d2.toNat - 48)
       decide (1 ≤ mo) && decide (mo ≤ 12) && decide (1 ≤ da) &&
       decide (da ≤ 31))
  | _ => false

/-- ECMAScript `new Date(s).toISOString()` as the form uses it: a date-only
string parses to UTC midnight of that day and serializes with a zero time
component; a string that is not a date yields `Invalid Date`, whose
`toISOString()` throws (`none`). -/
def jsDateToISO (s : String) : Option String :=
  if isDateOnly s then some (s ++ "T00:00:00.000Z") else none

/-! ## Data layer: row-level policy, list, delete, update -/

/-- Modelled from the spec: the row-level access policy for the `tasks`
table (spec §4.1), whose SQL definition lives in the database migrations
and is not among the client sources — a caller may read, update and delete
only rows whose owner id equals their own identity. -/
def taskPolicy (caller : Nat) (t : Task) : Bool :=
  t.user_id == caller

/-- The row filter contributed by the Dashboard `loadTasks` query itself:
`from('tasks').select('*')` adds no condition, in particular no owner
filter. -/
def loadTasksClientPred : Task → Bool := fun _ => true

/-- The row filter contributed by the TaskList delete query itself:
`.delete().eq('id', taskId)` filters only by the task id. -/
def deleteClientPred (taskId : Nat) : Task → Bool :=
  fun t => t.id == taskId

/-- Descending insertion by `created_at` (ties keep earlier elements
first), helper for the storage layer's `order('created_at',
{ascending: false})`. -/
def insertDesc (t : Task) : List Task → List Task
  | [] => [t]
  | u :: us =>
      if u.created_at ≤ t.created_at then t :: u :: us
      else u :: insertDesc t us

/-- The storage layer's ordering of a result set by
`created_at` descending. -/
def sortByCreatedDesc : List Task → List Task
  | [] => []
  | t :: ts => insertDesc t (sortByCreatedDesc ts)

/-- `loadTasks` from `src/pages/Dashboard.tsx`: select every row the policy
lets the caller see (the client adds no filter of its own) and order by
`created_at` descending. -/
def loadTasks (caller : Nat) (db : List Task) : List Task :=
  sortByCreatedDesc
    (db.filter (fun t => taskPolicy caller t && loadTasksClientPred t))

/-- `handleDelete` from `src/components/TaskList.tsx`: the data layer
removes exactly the rows that match the client's id filter and pass the
row policy; an id matching no visible row removes nothing and the call
reports success either way. -/
def handleDelete (caller taskId : Nat) (db : List Task) : List Task :=
  db.filter (fun t => !(taskPolicy caller t && deleteClientPred taskId t))

/-- `handleStatusChange` from `src/components/TaskList.tsx`:
`update({status: newStatus}).eq('id', taskId)` — the data layer applies
the partial update `{status}` to the rows that match the id filter and
pass the row policy, leaving every other row unchanged. -/
def handleStatusChange (caller taskId : Nat) (newStatus : Status)
    (db : List Task) : List Task :=
  db.map (fun t =>
    if taskPolicy caller t && deleteClientPred taskId t then
      { t with status := newStatus }
    else t)

/-- Applying the full-record payload of `TaskForm.handleSubmit` to a row:
`update(taskData)` overwrites title, description, status, priority,
due_date and user_id, keeping the row's id and `created_at` (maintained by
the storage layer). -/
def applyTaskData (td : TaskData) (t : Task) : Task :=
  { t with title := td.title
           description := td.description
           status := td.status
           priority := td.priority
           due_date := td.due_date
           user_id := td.user_id }

/-- The update branch of `TaskForm.handleSubmit`:
`update(taskData).eq('id', task.id)` — the data layer applies the payload
to the rows that match the id filter and pass the row policy. -/
def updateTaskRow (caller taskId : Nat) (td : TaskData)
    (db : List Task) : List Task :=
  db.map (fun t =>
    if taskPolicy caller t && deleteClientPred taskId t then
      applyTaskData td t
    else t)

/-! ## Concrete inputs used by counterexamples and witnesses -/

/-- A 201-character title: one leading space followed by two hundred
copies of `'a'`. -/
def c4LongTitle : String := String.mk (' ' :: List.replicate 200 'a')

def c4LongForm : FormData :=
  { title := c4LongTitle, description := "", status := Status.pending,
    priority := Priority.medium, due_date := "" }

/-- A 1001-character description. -/
def c5Desc : String := String.mk (List.replicate 1001 'b')

def c5Form : FormData :=
  { title := "", description := c5Desc, status := Status.pending,
    priority := Priority.medium, due_date := "" }

def c6Form : FormData :=
  { title := "a", description := "", status := Status.pending,
    priority := Priority.medium, due_date := "not-a-date" }

def c9Form : FormData :=
  { title := "t", description := "", status := Status.completed,
    priority := Priority.high, due_date := "" }

def c9Payload : TaskData :=
  { title := "t", description := none, status := Status.completed,
    priority := Priority.high, due_date := none, user_id := 1 }

def c9Row : Task :=
  { id := 5, user_id := 1, title := "old", description := some "d",
    status := Status.pending, priority := Priority.low,
    due_date := some "2024-01-01T00:00:00.000Z", created_at := 3 }

def c10Task : Task :=
  { id := 1, user_id := 1, title := "a", description := none,
    status := Status.pending, priority := Priority.medium,
    due_date := some "2024-12-31T23:59:59+00:00", created_at := 0 }

end TaskApp

namespace TaskApp

/-! ## Claims about `getCurrentUser` -/

/-- C1: with a live session, `getCurrentUser` never fails: it returns an
identity whose role is `admin` exactly when the role lookup produced an
explicit `admin` row; when the role lookup errors or finds no row the role
is `user`, and when the profile lookup errors or finds no row the display
name is omitted. -/
theorem getCurrentUser_role_default (sres : SessionResult)
    (roleData : Option Role) (profileData : Option ProfileRow)
    (u : SessionUser) (herr : sres.error = false)
    (hsess : sres.session = some u) :
    ∃ au : AuthUser, getCurrentUser sres roleData profileData = some au ∧
      (au.role = Role.admin ↔ roleData = some Role.admin) ∧
      (roleData = none → au.role = Role.user) ∧
      (profileData = none → au.full_name = none) := by
  refine ⟨{ id := u.id, email := u.email,
            full_name := profileData.bind (fun p => p.full_name),
            role := match roleData with
                    | some r => r
                    | none => Role.user },
          by simp [getCurrentUser, herr, hsess], ?_, ?_, ?_⟩
  · constructor
    · intro h
      match roleData with
      | some Role.admin => rfl
      | some Role.user => simp_all
      | none => simp_all
    · intro h
      subst h
      rfl
  · intro h
    subst h
    rfl
  · intro h
    subst h
    rfl

/-- Witness for C1 at a concrete input: session present, role lookup failed,
profile lookup failed; the call still returns a `user`-role identity with no
display name. -/
theorem getCurrentUser_role_default_witness :
    ∃ au : AuthUser,
      getCurrentUser ⟨some ⟨7, "a@b.c"⟩, false⟩ none none = some au ∧
      (au.role = Role.admin ↔ (none : Option Role) = some Role.admin) ∧
      ((none : Option Role) = none → au.role = Role.user) ∧
      ((none : Option ProfileRow) = none → au.full_name = none) :=
  getCurrentUser_role_default ⟨some ⟨7, "a@b.c"⟩, false⟩ none none
    ⟨7, "a@b.c"⟩ rfl rfl

/-- C3: when the session lookup errors or no session exists,
`getCurrentUser` returns `none` (no current identity) rather than an
error. -/
theorem getCurrentUser_nullOnNoSession (sres : SessionResult)
    (roleData : Option Role) (profileData : Option ProfileRow)
    (h : sres.error = true ∨ sres.session = none) :
    getCurrentUser sres roleData profileData = none := by
  rcases h with h | h
  · simp [getCurrentUser, h]
  · unfold getCurrentUser
    rw [h]
    cases sres.error <;> simp

/-- Witness for C3: a concrete errored session call yields no identity. -/
theorem getCurrentUser_nullOnNoSession_witness :
    getCurrentUser ⟨some ⟨3, "x@y.z"⟩, true⟩ (some Role.admin)
      (some ⟨some "X"⟩) = none :=
  getCurrentUser_nullOnNoSession ⟨some ⟨3, "x@y.z"⟩, true⟩ (some Role.admin)
    (some ⟨some "X"⟩) (Or.inl rfl)

/-! ## Sorting lemmas for the ordered list query -/

theorem mem_insertDesc {a t : Task} {l : List Task} :
    a ∈ insertDesc t l ↔ a = t ∨ a ∈ l := by
  induction l with
  | nil => simp [insertDesc]
  | cons u us ih =>
      by_cases h : u.created_at ≤ t.created_at
      · simp [insertDesc, h]
      · simp [insertDesc, h, ih]
        tauto

theorem mem_sortByCreatedDesc {a : Task} {l : List Task} :
    a ∈ sortByCreatedDesc l ↔ a ∈ l := by
  induction l with
  | nil => simp [sortByCreatedDesc]
  | cons t ts ih => simp [sortByCreatedDesc, mem_insertDesc, ih]

theorem head?_insertDesc (t : Task) (l : List Task) :
    (insertDesc t l).head? = some t ∨ (insertDesc t l).head? = l.head? := by
  cases l with
  | nil => left; rfl
  | cons u us =>
      by_cases h : u.created_at ≤ t.created_at
      · left; simp [insertDesc, h]
      · right; simp [insertDesc, h]

theorem chain'_insertDesc (t : Task) (l : List Task)
    (h : List.Chain' (fun a b : Task => b.created_at ≤ a.created_at) l) :
    List.Chain' (fun a b : Task => b.created_at ≤ a.created_at)
      (insertDesc t l) := by
  induction l with
  | nil => simp [insertDesc]
  | cons u us ih =>
      rw [insertDesc]
      by_cases hle : u.created_at ≤ t.created_at
      · rw [if_pos hle, List.chain'_cons]
        exact ⟨hle, h⟩
      · rw [if_neg hle]
        rw [List.chain'_cons'] at h ⊢
        refine ⟨?_, ih h.2⟩
        intro y hy
        rcases head?_insertDesc t us with h' | h'
        · rw [h'] at hy
          simp only [Option.mem_def, Option.some.injEq] at hy
          subst hy
          omega
        · rw [h'] at hy
          exact h.1 y hy

theorem chain'_sortByCreatedDesc (l : List Task) :
    List.Chain' (fun a b : Task => b.created_at ≤ a.created_at)
      (sortByCreatedDesc l) := by
  induction l with
  | nil => exact List.chain'_nil
  | cons t ts ih => exact chain'_insertDesc t _ ih

/-! ## Claims about the task list, delete and policy scoping -/

/-- C7: the list-own operation returns the caller's tasks ordered
newest-created-first — every adjacent pair of the list returned by
`loadTasks` has the earlier element's `created_at` greater than or equal
to the later element's. -/
theorem loadTasks_sorted_desc (caller : Nat) (db : List Task) :
    List.Chain' (fun a b : Task => b.created_at ≤ a.created_at)
      (loadTasks caller db) :=
  chain'_sortByCreatedDesc _

/-- C2: the client queries do no owner filtering of their own (the list
query's own predicate is constantly true, the delete query filters only by
task id), yet reads, deletes and status updates act only on rows whose
owner matches the caller: the list returns exactly the caller's rows,
another user's rows survive any delete or update untouched, and a delete
aimed at an id whose rows all belong to someone else (or at no row at all)
leaves the table exactly as a delete of a nonexistent id does. -/
theorem taskOps_owner_scoped (caller taskId : Nat) (db : List Task) :
    (∀ t : Task, loadTasksClientPred t = true) ∧
    (∀ t : Task, deleteClientPred taskId t = (t.id == taskId)) ∧
    (∀ t : Task, t ∈ loadTasks caller db ↔ t ∈ db ∧ t.user_id = caller) ∧
    (∀ t ∈ db, t.user_id ≠ caller → t ∈ handleDelete caller taskId db) ∧
    ((∀ t ∈ db, t.id = taskId → t.user_id ≠ caller) →
      handleDelete caller taskId db = db) ∧
    (∀ t ∈ db, t.user_id ≠ caller → ∀ s : Status,
      t ∈ handleStatusChange caller taskId s db) ∧
    ((∀ t ∈ db, t.id = taskId → t.user_id ≠ caller) → ∀ s : Status,
      handleStatusChange caller taskId s db = db) := by
  refine ⟨fun t => rfl, fun t => rfl, ?_, ?_, ?_, ?_, ?_⟩
  · intro t
    simp [loadTasks, mem_sortByCreatedDesc, List.mem_filter, taskPolicy,
      loadTasksClientPred]
  · intro t ht hne
    simp only [handleDelete, List.mem_filter]
    refine ⟨ht, ?_⟩
    simp [taskPolicy, hne]
  · intro hnone
    apply List.filter_eq_self.mpr
    intro t ht
    simp only [Bool.not_eq_true', Bool.and_eq_false_iff]
    by_cases hid : t.id = taskId
    · left
      simp [taskPolicy, hnone t ht hid]
    · right
      simp [deleteClientPred, hid]
  · intro t ht hne s
    have heq : (fun u : Task =>
        if taskPolicy caller u && deleteClientPred taskId u then
          { u with status := s } else u) t = t := by
      simp [taskPolicy, hne]
    have hm := List.mem_map_of_mem (fun u : Task =>
        if taskPolicy caller u && deleteClientPred taskId u then
          { u with status := s } else u) ht
    rw [heq] at hm
    exact hm
  · intro hnone s
    have h1 : db.map (fun t : Task =>
        if taskPolicy caller t && deleteClientPred taskId t then
          { t with status := s } else t) = db.map id := by
      apply List.map_congr_left
      intro t ht
      by_cases hid : t.id = taskId
      · simp [taskPolicy, hnone t ht hid]
      · simp [deleteClientPred, hid]
    show db.map _ = db
    rw [h1, List.map_id]

/-- Witness for C2 at a concrete table: with rows `{id 1, owner 1}` and
`{id 2, owner 2}`, caller 1 deleting id 2 leaves the other user's row in
place. -/
theorem taskOps_owner_scoped_witness :
    (⟨2, 2, "other", none, Status.pending, Priority.low, none, 5⟩ : Task) ∈
      handleDelete 1 2
        [⟨1, 1, "mine", none, Status.pending, Priority.low, none, 9⟩,
         ⟨2, 2, "other", none, Status.pending, Priority.low, none, 5⟩] :=
  (taskOps_owner_scoped 1 2
      [⟨1, 1, "mine", none, Status.pending, Priority.low, none, 9⟩,
       ⟨2, 2, "other", none, Status.pending, Priority.low, none, 5⟩]).2.2.2.1
    ⟨2, 2, "other", none, Status.pending, Priority.low, none, 5⟩
    (by simp) (by decide)

/-- C8: the status-change operation is a partial update: for every row of
the table, the updated table's corresponding row keeps the id, owner,
title, description, priority, due date and creation timestamp unchanged,
and its status is the new value exactly on the rows the update targets
(policy-visible rows matching the id) and unchanged everywhere else. -/
theorem statusChange_only_status (caller taskId : Nat) (s : Status)
    (db : List Task) :
    List.Forall₂ (fun t t' : Task =>
        t'.id = t.id ∧ t'.user_id = t.user_id ∧ t'.title = t.title ∧
        t'.description = t.description ∧ t'.priority = t.priority ∧
        t'.due_date = t.due_date ∧ t'.created_at = t.created_at ∧
        t'.status = (if taskPolicy caller t && deleteClientPred taskId t
                     then s else t.status))
      db (handleStatusChange caller taskId s db) := by
  unfold handleStatusChange
  induction db with
  | nil => exact List.Forall₂.nil
  | cons t ts ih =>
      refine List.Forall₂.cons ?_ ih
      cases h : taskPolicy caller t && deleteClientPred taskId t
      · simp [h]
      · simp [h]

/-! ## Claims about form validation and submission -/

/-- C4 counterexample: a title of exactly 201 characters (one leading
space plus 200 letters) is not rejected — the zod trim transform runs
before the length checks, so validation passes and the untrimmed
201-character title is written. -/
theorem titleBounds_counterexample :
    c4LongTitle.length = 201 ∧
    handleSubmit jsDateToISO 1 c4LongForm =
      SubmitOutcome.write
        { title := c4LongTitle, description := none,
          status := Status.pending, priority := Priority.medium,
          due_date := none, user_id := 1 } := by
  constructor
  · decide
  · decide

/-- C4 (amended): the length bounds apply to the title after trimming: a
title that is empty after trimming is rejected with the first schema
message before any persistence call, a title whose trimmed length is 201
is rejected likewise, and a title whose trimmed length is exactly 200 is
accepted (the write is issued, given the other fields pass). -/
theorem titleBounds_trimmed (f : FormData) (pd : String → Option String)
    (uid : Nat) :
    (jsTrim f.title = "" →
      handleSubmit pd uid f =
        SubmitOutcome.validationError "Title is required") ∧
    ((jsTrim f.title).length = 201 →
      handleSubmit pd uid f = SubmitOutcome.validationError "Title too long") ∧
    ((jsTrim f.title).length = 200 →
      descriptionIssues
        (if f.description = "" then none else some f.description) = [] →
      f.due_date = "" →
      ∃ td, handleSubmit pd uid f = SubmitOutcome.write td ∧
        td.title = f.title) := by
  refine ⟨?_, ?_, ?_⟩
  · intro h
    have h1 : titleIssues f.title = ["Title is required"] := by
      simp [titleIssues, h]
    unfold handleSubmit parseIssues
    rw [h1]
    rfl
  · intro h
    have h1 : titleIssues f.title = ["Title too long"] := by
      simp [titleIssues, h]
    unfold handleSubmit parseIssues
    rw [h1]
    rfl
  · intro h hdesc hdd
    have h1 : titleIssues f.title = [] := by
      simp [titleIssues, h]
    refine ⟨{ title := f.title,
              description := if f.description = "" then none
                             else some f.description,
              status := f.status, priority := f.priority,
              due_date := none, user_id := uid }, ?_, rfl⟩
    unfold handleSubmit parseIssues
    rw [h1, hdesc, if_pos hdd]
    rfl

/-- Witness for the amended C4: a title of 200 letters (trimmed length
200) with the other fields valid is accepted and written. -/
theorem titleBounds_trimmed_witness :
    ∃ td, handleSubmit jsDateToISO 1
        { title := String.mk (List.replicate 200 'a'), description := "",
          status := Status.pending, priority := Priority.medium,
          due_date := "" } = SubmitOutcome.write td ∧
      td.title = String.mk (List.replicate 200 'a') :=
  (titleBounds_trimmed
      { title := String.mk (List.replicate 200 'a'), description := "",
        status := Status.pending, priority := Priority.medium,
        due_date := "" } jsDateToISO 1).2.2 (by decide) (by decide) rfl

/-- C5: when the submitted fields violate the schema, the handler reports
exactly the first issue in schema order and returns without issuing any
persistence call. -/
theorem firstIssue_blocks_write (f : FormData) (pd : String → Option String)
    (uid : Nat) (m : String) (rest : List String)
    (h : parseIssues f = m :: rest) :
    handleSubmit pd uid f = SubmitOutcome.validationError m ∧
    ∀ td, handleSubmit pd uid f ≠ SubmitOutcome.write td := by
  have h1 : handleSubmit pd uid f = SubmitOutcome.validationError m := by
    unfold handleSubmit
    rw [h]
  exact ⟨h1, fun td hw => by
    rw [h1] at hw
    exact SubmitOutcome.noConfusion hw⟩

/-- Witness for C5: a submission violating both the title and the
description rules reports only the first violation (the title one) and
issues no write. -/
theorem firstIssue_blocks_write_witness :
    handleSubmit jsDateToISO 1 c5Form =
      SubmitOutcome.validationError "Title is required" ∧
    ∀ td, handleSubmit jsDateToISO 1 c5Form ≠ SubmitOutcome.write td :=
  firstIssue_blocks_write c5Form jsDateToISO 1 "Title is required"
    ["Description too long"] (by decide)

/-- C6 counterexample: the validation schema accepts the non-parsing due
date string "not-a-date" (it reports no issue at all), even though the
date does not parse as an instant; the handler then throws while building
the payload instead of rejecting in validation. -/
theorem dueDateValidation_counterexample :
    parseIssues c6Form = [] ∧
    jsDateToISO "not-a-date" = none ∧
    handleSubmit jsDateToISO 1 c6Form = SubmitOutcome.crash := by
  decide

/-- C6 (amended): the due date is optional and the validation schema
accepts any string for it (it contributes no issue); a supplied due date
that does not parse as a valid instant makes the handler throw at the date
conversion — after validation, before any persistence call — so no write
is issued, but the rejection is a thrown exception, not a validation
error. -/
theorem dueDate_unchecked (f : FormData) (pd : String → Option String)
    (uid : Nat) :
    (∀ s : String, parseIssues { f with due_date := s } = parseIssues f) ∧
    (parseIssues f = [] → f.due_date ≠ "" → pd f.due_date = none →
      handleSubmit pd uid f = SubmitOutcome.crash ∧
      ∀ td, handleSubmit pd uid f ≠ SubmitOutcome.write td) := by
  refine ⟨fun s => rfl, ?_⟩
  intro hpi hne hpd
  have h1 : handleSubmit pd uid f = SubmitOutcome.crash := by
    unfold handleSubmit
    rw [hpi, if_neg hne, hpd]
  exact ⟨h1, fun td hw => by
    rw [h1] at hw
    exact SubmitOutcome.noConfusion hw⟩

/-- Witness for the amended C6 at the concrete non-parsing due date. -/
theorem dueDate_unchecked_witness :
    handleSubmit jsDateToISO 1 c6Form = SubmitOutcome.crash ∧
    ∀ td, handleSubmit jsDateToISO 1 c6Form ≠ SubmitOutcome.write td :=
  (dueDate_unchecked c6Form jsDateToISO 1).2 (by decide) (by decide)
    (by decide)

/-- C9: a form edit writes the full record: the payload carries the form's
current title, description, status, priority and due date together with
the `userId` prop, and applying the update to the matching owned row makes
every one of those row fields equal the submitted value (fields the user
did not touch included, since the payload is built from the whole form
state). -/
theorem edit_writes_full_record (pd : String → Option String)
    (uid caller taskId : Nat) (f : FormData) (td : TaskData) (t : Task)
    (db : List Task)
    (hw : handleSubmit pd uid f = SubmitOutcome.write td)
    (hown : taskPolicy caller t = true)
    (hid : deleteClientPred taskId t = true)
    (hmem : t ∈ db) :
    td.title = f.title ∧
    td.description =
      (if f.description = "" then none else some f.description) ∧
    td.status = f.status ∧ td.priority = f.priority ∧ td.user_id = uid ∧
    (f.due_date = "" → td.due_date = none) ∧
    (∀ iso, pd f.due_date = some iso → f.due_date ≠ "" →
      td.due_date = some iso) ∧
    applyTaskData td t ∈ updateTaskRow caller taskId td db ∧
    (applyTaskData td t).title = td.title ∧
    (applyTaskData td t).description = td.description ∧
    (applyTaskData td t).status = td.status ∧
    (applyTaskData td t).priority = td.priority ∧
    (applyTaskData td t).due_date = td.due_date ∧
    (applyTaskData td t).user_id = td.user_id := by
  have hmem' : applyTaskData td t ∈ updateTaskRow caller taskId td db := by
    have heq : (fun u : Task =>
        if taskPolicy caller u && deleteClientPred taskId u then
          applyTaskData td u
        else u) t = applyTaskData td t := by
      simp [hown, hid]
    have hm := List.mem_map_of_mem (fun u : Task =>
        if taskPolicy caller u && deleteClientPred taskId u then
          applyTaskData td u
        else u) hmem
    rw [heq] at hm
    exact hm
  unfold handleSubmit at hw
  cases hpi : parseIssues f with
  | cons m rest =>
      rw [hpi] at hw
      exact absurd hw (by simp)
  | nil =>
      rw [hpi] at hw
      by_cases hdd : f.due_date = ""
      · rw [if_pos hdd] at hw
        rw [SubmitOutcome.write.injEq] at hw
        subst hw
        exact ⟨rfl, rfl, rfl, rfl, rfl, fun _ => rfl,
          fun iso _ hne => absurd hdd hne, hmem', rfl, rfl, rfl, rfl, rfl,
          rfl⟩
      · rw [if_neg hdd] at hw
        cases hpd : pd f.due_date with
        | none =>
            rw [hpd] at hw
            exact absurd hw (by simp)
        | some iso =>
            rw [hpd] at hw
            rw [SubmitOutcome.write.injEq] at hw
            subst hw
            refine ⟨rfl, rfl, rfl, rfl, rfl, fun h => absurd h hdd,
              ?_, hmem', rfl, rfl, rfl, rfl, rfl, rfl⟩
            intro iso' hiso' _
            show some iso = some iso'
            exact hiso'

/-- Witness for C9: editing a concrete owned row through the form puts the
fully overwritten row in the updated table. -/
theorem edit_writes_full_record_witness :
    applyTaskData c9Payload c9Row ∈ updateTaskRow 1 5 c9Payload [c9Row] :=
  (edit_writes_full_record jsDateToISO 1 1 5 c9Form c9Payload c9Row [c9Row]
    (by decide) (by decide) (by decide) (by simp)).2.2.2.2.2.2.2.1

/-! ## Claim about the due-date round trip -/

theorem isDateOnly_ne_empty {s : String} (h : isDateOnly s = true) :
    s ≠ "" := by
  intro he
  subst he
  exact absurd h (by decide)

/-- C10: opening the edit form on a task with a stored due date keeps only
the substring of the stored string before `'T'`; saving without touching
the field re-parses that date-only string, so the persisted due date is
the stored instant truncated to its date component at UTC midnight — in
particular the round trip is not the identity on `due_date`. -/
theorem editRoundTrip_truncates_dueDate (t : Task) (d : String) (uid : Nat)
    (hd : t.due_date = some d)
    (hacc : parseIssues (initFormData t) = [])
    (hfmt : isDateOnly (splitBeforeT d) = true) :
    (initFormData t).due_date = splitBeforeT d ∧
    (∃ td, handleSubmit jsDateToISO uid (initFormData t) =
        SubmitOutcome.write td ∧
      td.due_date = some (splitBeforeT d ++ "T00:00:00.000Z")) ∧
    (∃ t₀ : Task, ∃ d₀ : String, t₀.due_date = some d₀ ∧
      ∃ td₀, handleSubmit jsDateToISO uid (initFormData t₀) =
          SubmitOutcome.write td₀ ∧
        td₀.due_date ≠ t₀.due_date) := by
  have h0 : (initFormData t).due_date = splitBeforeT d := by
    simp [initFormData, hd]
  have hne : (initFormData t).due_date ≠ "" := by
    rw [h0]
    exact isDateOnly_ne_empty hfmt
  refine ⟨h0, ?_, ?_⟩
  · refine ⟨{ title := (initFormData t).title,
              description := if (initFormData t).description = "" then none
                             else some (initFormData t).description,
              status := (initFormData t).status,
              priority := (initFormData t).priority,
              due_date := some (splitBeforeT d ++ "T00:00:00.000Z"),
              user_id := uid }, ?_, rfl⟩
    unfold handleSubmit
    rw [hacc, if_neg hne, h0]
    simp only [jsDateToISO, if_pos hfmt]
  · refine ⟨{ id := 0, user_id := 0, title := "a", description := none,
              status := Status.pending, priority := Priority.medium,
              due_date := some "2024-12-31T23:59:59+00:00",
              created_at := 0 }, "2024-12-31T23:59:59+00:00", rfl,
            { title := "a", description := none, status := Status.pending,
              priority := Priority.medium,
              due_date := some "2024-12-31T00:00:00.000Z",
              user_id := uid }, ?_, ?_⟩
    · rfl
    · show some "2024-12-31T00:00:00.000Z" ≠ some "2024-12-31T23:59:59+00:00"
      decide

/-- Witness for C10: the concrete stored instant
`2024-12-31T23:59:59+00:00` round-trips to the truncated
`2024-12-31T00:00:00.000Z`. -/
theorem editRoundTrip_truncates_dueDate_witness :
    ∃ td, handleSubmit jsDateToISO 1 (initFormData c10Task) =
        SubmitOutcome.write td ∧
      td.due_date =
        some (splitBeforeT "2024-12-31T23:59:59+00:00" ++ "T00:00:00.000Z") :=
  (editRoundTrip_truncates_dueDate c10Task "2024-12-31T23:59:59+00:00" 1
    rfl (by decide) (by decide)).2.1

end TaskApp
